import Mathlib

/-!
Verification development for the LogKV repository: a shallow embedding of
the write-ahead log (src/src/wal.cpp), the server request handlers
(src/src/server.cpp), the replicator (src/src/replication.cpp), the
snapshot manager (src/src/snapshot.cpp) and the standalone command loop
(src/src/main.cpp), together with theorems settling the specification
claims about them.

File-system effects are made explicit: each operation that touches a file
takes the outcome of that file operation as a parameter, and the on-disk
metadata file is carried in the state as an optional pair.
-/

/-- Log entry, mirroring struct LogEntry of src/src/wal.h:
index, term, key, value, operation. -/
structure LogEntry where
  index : Int
  term : Int
  key : String
  value : String
  op : String
deriving DecidableEq, Repr

/-- State of a WriteAheadLog object (src/src/wal.h): the in-memory entry
vector log_cache_, the compaction field first_log_index_ (initialised to 1),
and the content of the sibling metadata file as an optional
(current_term, voted_for) pair, none when the file does not exist. -/
structure WalState where
  log_cache : List LogEntry
  first_log_index : Int
  meta : Option (Int × Int)
deriving DecidableEq, Repr

/-- A WAL whose log file and metadata file do not exist yet. -/
def emptyWal : WalState := { log_cache := [], first_log_index := 1, meta := none }

/-- Outcome of the file operations performed by WriteAheadLog::appendEntry:
the open of the log file can fail, or the subsequent stream write can fail
(the source never checks the stream after writing), or everything succeeds. -/
inductive FileOutcome
  | openFail
  | writeFail
  | writeOk
deriving DecidableEq, Repr

/-- WriteAheadLog::appendEntry (src/src/wal.cpp lines 11-30): when the open
fails the function logs to stderr and returns early, leaving the cache
untouched; otherwise it writes the line and pushes the entry onto
log_cache_ without checking whether the write succeeded. The C++ function
returns void, so no error value exists in the model either. -/
def appendEntry (w : WalState) (entry : LogEntry) (io : FileOutcome) : WalState :=
  match io with
  | FileOutcome.openFail => w
  | _ => { w with log_cache := w.log_cache ++ [entry] }

/-- WriteAheadLog::getEntry (src/src/wal.cpp lines 32-42): treats the
argument as a 1-based position into log_cache_ and returns none when the
position is out of range. -/
def getEntry (w : WalState) (index : Int) : Option LogEntry :=
  if index < 1 ∨ index > (w.log_cache.length : Int) then none
  else w.log_cache[(index - 1).toNat]?

/-- WriteAheadLog::getLastLogInfo (src/src/wal.cpp lines 55-65): (0, 0) when
log_cache_ is empty, else the index and term of the last cached entry. -/
def getLastLogInfo (w : WalState) : Int × Int :=
  match w.log_cache.getLast? with
  | none => (0, 0)
  | some e => (e.index, e.term)

/-- WriteAheadLog::saveMetadata (src/src/wal.cpp lines 113-122): rewrites the
metadata file with the given pair (modelled with the file write succeeding). -/
def saveMetadata (w : WalState) (current_term voted_for : Int) : WalState :=
  { w with meta := some (current_term, voted_for) }

/-- WriteAheadLog::loadMetadata (src/src/wal.cpp lines 124-136): when the
metadata file does not exist, returns the defaults term 0 and voted_for -1;
otherwise reads the stored pair. -/
def loadMetadata (w : WalState) : Int × Int :=
  match w.meta with
  | none => (0, -1)
  | some p => p

/-- The scan loop of WriteAheadLog::discardEntriesBefore (src/src/wal.cpp
lines 198-204): position of the first cached entry whose index field equals
the requested snapshot index, none when absent. -/
def findPos (es : List LogEntry) (k : Int) : Option Nat :=
  match es with
  | [] => none
  | e :: rest => if e.index = k then some 0 else (findPos rest k).map (· + 1)

/-- WriteAheadLog::discardEntriesBefore (src/src/wal.cpp lines 190-228):
finds the cache position of snapshot_index; when absent it warns and leaves
the state unchanged; otherwise it erases everything up to and including that
position and sets first_log_index_ to the index of the new head entry, or to
snapshot_index + 1 when nothing remains. -/
def discardEntriesBefore (w : WalState) (snapshot_index : Int) : WalState :=
  match findPos w.log_cache snapshot_index with
  | none => w
  | some pos =>
    let rest := w.log_cache.drop (pos + 1)
    { w with
      log_cache := rest
      first_log_index :=
        match rest with
        | [] => snapshot_index + 1
        | e :: _ => e.index }

/-- WriteAheadLog::getFirstLogIndex (src/src/wal.cpp lines 230-238): the
index of the head cached entry, or the first_log_index_ field when the
cache is empty. -/
def getFirstLogIndex (w : WalState) : Int :=
  match w.log_cache with
  | [] => w.first_log_index
  | e :: _ => e.index

/-- WriteAheadLog::installSnapshot (src/src/wal.cpp lines 240-262): clears
log_cache_, sets first_log_index_ to last_included_index + 1, persists the
empty log and then calls saveMetadata(last_included_term, -1), overwriting
the persisted pair with the term taken from the snapshot. -/
def installSnapshot (w : WalState) (last_included_index last_included_term : Int) : WalState :=
  saveMetadata
    { w with log_cache := [], first_log_index := last_included_index + 1 }
    last_included_term (-1)

/-- KV map modelled as an association list; KVStore::put (src/src/kv_store.cpp)
is insert-or-assign on std::unordered_map. -/
def kvPut (m : List (String × String)) (k v : String) : List (String × String) :=
  if m.any (fun p => p.1 = k) then
    m.map (fun p => if p.1 = k then (k, v) else p)
  else m ++ [(k, v)]

/-- KVStore::get (src/src/kv_store.cpp): the stored value, none when absent. -/
def kvGet (m : List (String × String)) (k : String) : Option String :=
  (m.find? (fun p => p.1 = k)).map (fun p => p.2)

/-- One step of WriteAheadLog::replay (src/src/wal.cpp lines 81-95): a PUT
entry is applied to the store, anything else is a no-op placeholder. -/
def applyEntry (m : List (String × String)) (e : LogEntry) : List (String × String) :=
  if e.op = "PUT" then kvPut m e.key e.value else m

/-- Left fold of applyEntry over a list of entries, as replay does. -/
def applyEntries (m : List (String × String)) (es : List LogEntry) : List (String × String) :=
  es.foldl applyEntry m

/-- Node role. The enum of src/src/server.h lists only LEADER and FOLLOWER,
but src/src/server.cpp assigns Role::CANDIDATE in startElection, so the
model carries all three. -/
inductive Role
  | LEADER
  | FOLLOWER
  | CANDIDATE
deriving DecidableEq, Repr

/-- Per-node server state used by src/src/server.cpp: role_, current_term_,
voted_for_, server_id_, the number of peers (peers_.size()), the KV store
and the WAL. -/
structure ServerState where
  role : Role
  current_term : Int
  voted_for : Int
  server_id : Int
  peers : Nat
  store : List (String × String)
  wal : WalState
deriving DecidableEq, Repr

/-- Server::stepDown (src/src/server.cpp lines 8-18): raises current_term_
to new_term when strictly greater, becomes FOLLOWER and clears voted_for_.
Nothing is persisted by the source. -/
def stepDown (s : ServerState) (new_term : Int) : ServerState :=
  { s with
    current_term := max s.current_term new_term
    role := Role.FOLLOWER
    voted_for := -1 }

/-- The REQUEST_VOTE branch of Server::handleClient (src/src/server.cpp
lines 182-206). The request carries only a term and a candidate id; no log
fields are read. When the term is strictly greater the node steps down
first; a request with a stale term is denied; otherwise the vote is granted
exactly when voted_for_ is -1, recording the candidate. -/
def handleRequestVote (s : ServerState) (term candidate_id : Int) : ServerState × String :=
  let s1 := if s.current_term < term then stepDown s term else s
  if term < s1.current_term then (s1, "VOTE_DENIED\n")
  else if s1.voted_for = -1 then
    ({ s1 with voted_for := candidate_id }, "VOTE_GRANTED\n")
  else (s1, "VOTE_DENIED\n")

/-- The HEARTBEAT branch of Server::handleClient (src/src/server.cpp
lines 208-224): steps down on a strictly greater term, refreshes the
liveness deadline on an equal term (not modelled) and always replies OK. -/
def handleHeartbeat (s : ServerState) (term : Int) : ServerState × String :=
  let s1 := if s.current_term < term then stepDown s term else s
  (s1, "OK\n")

/-- Modelled from the spec: Server::handleClient calls wal_.appendPut(key,
value), but no appendPut member is defined anywhere under src (the WAL of
src/src/wal.h has only appendEntry). Per spec section 4.B, append places
the entry at index last_index + 1; the caller passes no term, so the term
field is filled with 0. -/
def appendPut (w : WalState) (key value : String) : WalState :=
  { w with
    log_cache := w.log_cache ++ [⟨(getLastLogInfo w).1 + 1, 0, key, value, "PUT"⟩] }

/-- The acknowledgement count of Replicator::replicatePut
(src/src/replication.cpp lines 38-77): the leader itself plus every
follower whose connection succeeded and whose reply contained ACK. The
list holds one boolean per configured follower. -/
def replicateAcks (followerAcks : List Bool) : Nat :=
  1 + followerAcks.count true

/-- The success decision of Replicator::replicatePut (src/src/replication.cpp
line 79): acks greater than (followers + 1) / 2, with machine integer
division. -/
def replicatePut (followerAcks : List Bool) : Bool :=
  decide ((followerAcks.length + 1) / 2 < replicateAcks followerAcks)

/-- The client PUT branch of Server::handleClient (src/src/server.cpp
lines 240-260): a follower replies NOT_LEADER; the leader appends to the
WAL, applies to the store, runs the replicator, and replies OK. There is
no argument validation, and the source discards the boolean returned by
replicatePut; the model returns that boolean alongside the reply so the
discard is observable. -/
def handlePut (s : ServerState) (key value : String) (followerAcks : List Bool) :
    ServerState × Bool × String :=
  if s.role = Role.FOLLOWER then (s, false, "NOT_LEADER\n")
  else
    ({ s with wal := appendPut s.wal key value, store := kvPut s.store key value },
     replicatePut followerAcks, "OK\n")

/-- Server::startElection (src/src/server.cpp lines 20-73): increments the
term, votes for itself, becomes CANDIDATE, counts granted replies plus the
self vote, and becomes LEADER exactly when the count reaches
(peers + 1) / 2 + 1, else falls back to FOLLOWER. -/
def startElection (s : ServerState) (voteReplies : List Bool) : ServerState :=
  let cand := { s with
    current_term := s.current_term + 1
    voted_for := s.server_id
    role := Role.CANDIDATE }
  let votes := 1 + voteReplies.count true
  if votes ≥ (s.peers + 1) / 2 + 1 then { cand with role := Role.LEADER }
  else { cand with role := Role.FOLLOWER }

/-- Operations a node can perform that touch current_term or the metadata
file: stepping down, starting an election, handling the vote and heartbeat
RPCs, persisting metadata, installing a snapshot into the WAL. -/
inductive NodeOp
  | stepDownOp (new_term : Int)
  | electionOp (voteReplies : List Bool)
  | requestVoteOp (term candidate_id : Int)
  | heartbeatOp (term : Int)
  | persistMetaOp
  | installSnapshotOp (last_included_index last_included_term : Int)

/-- One node operation applied to the server state. persistMetaOp runs
WriteAheadLog::saveMetadata on the node pair (current_term_, voted_for_),
the durable pair the spec assigns to save_meta; the other arms are the
source handlers. -/
def stepOp (s : ServerState) : NodeOp → ServerState
  | NodeOp.stepDownOp t => stepDown s t
  | NodeOp.electionOp replies => startElection s replies
  | NodeOp.requestVoteOp t cid => (handleRequestVote s t cid).1
  | NodeOp.heartbeatOp t => (handleHeartbeat s t).1
  | NodeOp.persistMetaOp => { s with wal := saveMetadata s.wal s.current_term s.voted_for }
  | NodeOp.installSnapshotOp lii lit => { s with wal := installSnapshot s.wal lii lit }

/-- The current_term recorded in the metadata file, as loadMetadata reads it. -/
def persistedTerm (s : ServerState) : Int :=
  (loadMetadata s.wal).1

/-- A snapshot file as written by SnapshotManager::createSnapshot
(src/src/snapshot.cpp lines 30-89): header last_index and last_term, then
the KV pairs. -/
structure Snapshot where
  last_included_index : Int
  last_included_term : Int
  state : List (String × String)
deriving DecidableEq, Repr

/-- Outcome of the file operations of SnapshotManager::createSnapshot: the
temp-file open can fail, the data write can fail, the atomic rename can
fail, or everything succeeds. -/
inductive SnapOutcome
  | tempOpenFail
  | tempWriteFail
  | renameFail
  | renameOk
deriving DecidableEq, Repr

/-- SnapshotManager::createSnapshot (src/src/snapshot.cpp lines 30-89):
returns false on any failure before or at the rename, leaving no new
snapshot file; on success the renamed file holds the given data under the
header (last_index, last_term). -/
def createSnapshot (data : List (String × String)) (last_index last_term : Int)
    (io : SnapOutcome) : Bool × Option Snapshot :=
  match io with
  | SnapOutcome.renameOk => (true, some ⟨last_index, last_term, data⟩)
  | _ => (false, none)

/-- Modelled from the spec: no code under src wires snapshot creation to log
compaction (nothing calls createSnapshot or discardEntriesBefore). Spec
section 4.C: after the rename succeeds, invoke discard of the log prefix at
the snapshot index; on failure the log is untouched. -/
def takeSnapshot (w : WalState) (data : List (String × String)) (k sterm : Int)
    (io : SnapOutcome) : WalState × Option Snapshot :=
  match createSnapshot data k sterm io with
  | (true, snap) => (discardEntriesBefore w k, snap)
  | (false, snap) => (w, snap)

/-- State of the standalone binary of src/src/main.cpp: a KV store and the
lines appended to its WAL (that divergent WAL variant takes whole strings). -/
structure MainState where
  store : List (String × String)
  wal_lines : List String
deriving DecidableEq, Repr

/-- The PUT branch of main (src/src/main.cpp lines 22-35): extraction of a
missing token leaves the string empty, and an empty key or value replies
ERROR without touching the store or the log; otherwise the line is logged,
the store updated, and OK printed. -/
def mainPut (st : MainState) (key value : String) : MainState × String :=
  if key = "" ∨ value = "" then (st, "ERROR\n")
  else
    ({ store := kvPut st.store key value
       wal_lines := st.wal_lines ++ ["PUT " ++ key ++ " " ++ value] }, "OK\n")

/-- The vote-grant condition stated by the spec (section 4.D, Elections),
written only for comparison with the source handler: term at least
current_term (voted_for being cleared when a strictly greater term forces a
step-down), voted_for in the resulting term NONE or the candidate, and the
candidate log at least as up-to-date as the local log. -/
def specVoteGrant (s : ServerState) (term candidate_id last_log_index last_log_term : Int) :
    Prop :=
  term ≥ s.current_term ∧
  ((if s.current_term < term then -1 else s.voted_for) = -1 ∨
   (if s.current_term < term then -1 else s.voted_for) = candidate_id) ∧
  (last_log_term > (getLastLogInfo s.wal).2 ∨
   (last_log_term = (getLastLogInfo s.wal).2 ∧ last_log_index ≥ (getLastLogInfo s.wal).1))

/-- Leader state with two configured followers, an empty store and a fresh WAL. -/
def leaderC1 : ServerState :=
  { role := Role.LEADER, current_term := 1, voted_for := -1, server_id := 1,
    peers := 2, store := [], wal := emptyWal }

/-- C1: evaluating the leader PUT path at the failing input: a PUT of x to 10
with two followers, neither of which acknowledges. Replication falls short of
the majority (1 of 3 acks, so replicatePut returns false), yet the handler
has already appended the entry, applied it to the store, and replies OK: the
OK reply is not withheld when the majority is not reached. -/
theorem C1_ok_without_majority :
    (handlePut leaderC1 "x" "10" [false, false]).2 = (false, "OK\n") ∧
    (handlePut leaderC1 "x" "10" [false, false]).1.wal.log_cache.length = 1 ∧
    kvGet (handlePut leaderC1 "x" "10" [false, false]).1.store "x" = some "10" := by
  decide

/-- Node with current term 1, no vote cast, and a log whose last entry has
index 3 and term 5. -/
def nodeC2 : ServerState :=
  { role := Role.FOLLOWER, current_term := 1, voted_for := -1, server_id := 3,
    peers := 2, store := [],
    wal := { log_cache := [⟨1, 1, "a", "1", "PUT"⟩, ⟨2, 5, "b", "2", "PUT"⟩,
                           ⟨3, 5, "c", "3", "PUT"⟩],
             first_log_index := 1, meta := none } }

/-- C2 counterexample: a candidate in the equal term 1 with an empty log
(last pair (0, 0)) petitions a node whose last log term is 5. Condition 3 of
the claim fails, so the claimed equivalence demands denial, yet the source
handler grants the vote: it never checks candidate log freshness. -/
theorem C2_counterexample :
    (handleRequestVote nodeC2 1 2).2 = "VOTE_GRANTED\n" ∧
    ¬ specVoteGrant nodeC2 1 2 0 0 := by
  refine ⟨by decide, ?_⟩
  unfold specVoteGrant
  decide

/-- C2 amended: the vote is granted iff the request term is at least the
node current term and, after the step-down a strictly greater term triggers
(which clears voted_for), voted_for is NONE: equivalently, the term is
strictly above current_term, or equal to it with voted_for = -1. The
handler never inspects candidate log information (the RPC carries none),
and a repeated vote for the same candidate in the same term is denied. -/
theorem C2_vote_grant (s : ServerState) (term candidate_id : Int) :
    (handleRequestVote s term candidate_id).2 = "VOTE_GRANTED\n" ↔
      (s.current_term < term ∨ (term = s.current_term ∧ s.voted_for = -1)) := by
  have hs : ("VOTE_DENIED\n" : String) ≠ "VOTE_GRANTED\n" := by decide
  unfold handleRequestVote stepDown
  by_cases h1 : s.current_term < term
  · have h2 : ¬ (term < max s.current_term term) := by omega
    simp [h1, h2]
  · by_cases h2 : term < s.current_term
    · simp [h1, h2, hs]
      omega
    · by_cases h3 : s.voted_for = -1
      · simp [h1, h2, h3]
        omega
      · simp [h1, h2, h3, hs]

/-- Fresh follower with two peers. -/
def nodeC3 : ServerState :=
  { role := Role.FOLLOWER, current_term := 0, voted_for := -1, server_id := 1,
    peers := 2, store := [], wal := emptyWal }

/-- The same node after granting a vote in term 5 and persisting metadata. -/
def nodeC3a : ServerState :=
  stepOp (stepOp nodeC3 (NodeOp.requestVoteOp 5 2)) NodeOp.persistMetaOp

/-- C3: a concrete operation trace on which the persisted current_term
decreases. The node reaches term 5 by granting a REQUEST_VOTE and persists
(5, 2); installing a snapshot whose last included entry has term 3 then
rewrites the metadata file to (3, -1): the persisted term drops from 5 to 3
while the in-memory term is still 5. -/
theorem C3_persisted_term_decreases :
    persistedTerm nodeC3a = 5 ∧
    persistedTerm (stepOp nodeC3a (NodeOp.installSnapshotOp 10 3)) = 3 ∧
    (stepOp nodeC3a (NodeOp.installSnapshotOp 10 3)).current_term = 5 := by
  decide

/-- C4: Replicator::replicatePut reports success exactly when the number of
acknowledging nodes, the leader included, reaches the strict majority
floor(n / 2) + 1 of the cluster size n = followers + 1; the source test
acks > (followers + 1) / 2 coincides with that bound over the integers. -/
theorem C4_replicate_majority (followerAcks : List Bool) :
    replicatePut followerAcks = true ↔
      replicateAcks followerAcks ≥ (followerAcks.length + 1) / 2 + 1 := by
  unfold replicatePut
  rw [decide_eq_true_iff]
  omega

/-- Entry used for the append evaluation. -/
def entryC5 : LogEntry := ⟨1, 1, "k", "v", "PUT"⟩

/-- C5: evaluating appendEntry at the failing input: when the stream write
fails after the log file opened, the entry is nevertheless pushed onto the
in-memory vector, and the void function surfaces no IO_ERROR; only an open
failure leaves the vector untouched. -/
theorem C5_append_writeFail_visible :
    (appendEntry emptyWal entryC5 FileOutcome.writeFail).log_cache = [entryC5] ∧
    (appendEntry emptyWal entryC5 FileOutcome.openFail).log_cache = [] := by
  exact ⟨rfl, rfl⟩

/-- WAL right after a snapshot with last included pair (5, 2) is installed. -/
def walC6 : WalState := installSnapshot emptyWal 5 2

/-- C6 counterexample: after installing a snapshot with last included pair
(5, 2), the log is empty and a snapshot is installed (first_log_index is 6),
yet getLastLogInfo returns (0, 0) instead of the snapshot metadata (5, 2). -/
theorem C6_counterexample :
    walC6.log_cache = [] ∧ walC6.first_log_index = 6 ∧
    getLastLogInfo walC6 = (0, 0) ∧ getLastLogInfo walC6 ≠ (5, 2) := by
  decide

/-- C6 amended: getLastLogInfo returns (0, 0) exactly when the in-memory log
is empty — including right after a snapshot installation, whose metadata it
never consults — and otherwise the tail entry index and term. Entries are
assumed well formed with index at least 1, as the data model prescribes. -/
theorem C6_last_info (w : WalState) (hwf : ∀ e ∈ w.log_cache, 1 ≤ e.index) :
    (getLastLogInfo w = (0, 0) ↔ w.log_cache = []) ∧
    (∀ lii lit, getLastLogInfo (installSnapshot w lii lit) = (0, 0)) ∧
    (∀ es e, w.log_cache = es ++ [e] → getLastLogInfo w = (e.index, e.term)) := by
  refine ⟨?_, ?_, ?_⟩
  · rcases List.eq_nil_or_concat w.log_cache with h | ⟨es, e, h⟩
    · simp [getLastLogInfo, h]
    · rw [List.concat_eq_append] at h
      have he : e ∈ w.log_cache := by rw [h]; simp
      have h1 := hwf e he
      simp [getLastLogInfo, h, List.getLast?_concat]
      omega
  · intro lii lit
    rfl
  · intro es e h
    rw [getLastLogInfo, h, List.getLast?_concat]

/-- Single-node leader used for the argument-validation counterexample. -/
def leaderC9 : ServerState :=
  { role := Role.LEADER, current_term := 1, voted_for := -1, server_id := 1,
    peers := 0, store := [], wal := emptyWal }

/-- C9 counterexample: the networked PUT path of Server::handleClient does
no argument validation: a PUT whose key and operand are missing (extracted
as empty strings) is appended to the WAL, applied to the store, and answered
OK rather than ERROR. -/
theorem C9_counterexample :
    (handlePut leaderC9 "" "" []).2.2 = "OK\n" ∧
    (handlePut leaderC9 "" "" []).1.store = [("", "")] ∧
    (handlePut leaderC9 "" "" []).1.wal.log_cache ≠ [] := by
  decide

/-- C9 amended: in the standalone loop of src/src/main.cpp, a PUT with an
empty key or a missing operand replies ERROR and leaves the store and the
log lines unchanged; the networked server handler has no such validation
(see the counterexample). -/
theorem C9_main_put_error (st : MainState) (key value : String)
    (h : key = "" ∨ value = "") :
    mainPut st key value = (st, "ERROR\n") := by
  rw [mainPut, if_pos h]

/-- Witness for C9: a PUT with a missing key is rejected without effect. -/
theorem C9_witness :
    ((("" : String) = "" ∨ ("x" : String) = "") ∧
     mainPut ⟨[("a", "1")], ["PUT a 1"]⟩ "" "x" = (⟨[("a", "1")], ["PUT a 1"]⟩, "ERROR\n")) :=
  ⟨Or.inl rfl, C9_main_put_error ⟨[("a", "1")], ["PUT a 1"]⟩ "" "x" (Or.inl rfl)⟩

/-- A contiguity check for a list of entries: the entry at each position
carries index base + position. This is the shape invariant the spec calls
log continuity. -/
def contiguousFromB : List LogEntry → Int → Bool
  | [], _ => true
  | e :: rest, b => e.index = b && contiguousFromB rest (b + 1)

/-- Dropping n entries from a contiguous list leaves a list contiguous from
base + n. -/
theorem contiguousFromB_drop (es : List LogEntry) (b : Int) (n : Nat)
    (h : contiguousFromB es b = true) :
    contiguousFromB (es.drop n) (b + n) = true := by
  induction es generalizing b n with
  | nil => simp [List.drop_nil, contiguousFromB]
  | cons e rest ih =>
    cases n with
    | zero =>
      simpa using h
    | succ m =>
      rw [contiguousFromB, Bool.and_eq_true] at h
      have h2 := ih (b + 1) m h.2
      have harith : b + (↑(m + 1) : Int) = (b + 1) + ↑m := by push_cast; ring
      rw [List.drop_succ_cons, harith]
      exact h2

/-- On a contiguous list, the scan loop of discardEntriesBefore finds the
entry with index k at position k - b. -/
theorem findPos_contiguous (es : List LogEntry) (b k : Int)
    (h : contiguousFromB es b = true) (h1 : b ≤ k) (h2 : k < b + es.length) :
    findPos es k = some (k - b).toNat := by
  induction es generalizing b with
  | nil => simp at h2; omega
  | cons e rest ih =>
    rw [contiguousFromB, Bool.and_eq_true, decide_eq_true_iff] at h
    by_cases hbk : e.index = k
    · rw [findPos, if_pos hbk]
      have : (k - b).toNat = 0 := by omega
      rw [this]
    · have hblt : b + 1 ≤ k := by
        rcases lt_or_eq_of_le h1 with hlt | heq
        · omega
        · exact absurd (h.1.trans heq) hbk
      have hlen : k < (b + 1) + rest.length := by
        rw [List.length_cons] at h2
        push_cast at h2 ⊢
        omega
      have h3 := ih (b + 1) h.2 hblt hlen
      rw [findPos, if_neg hbk, h3, Option.map_some']
      congr 1
      omega

/-- Shape of discardEntriesBefore when the scan finds the snapshot index. -/
theorem discard_found (w : WalState) (k : Int) (pos : Nat)
    (h : findPos w.log_cache k = some pos) :
    discardEntriesBefore w k =
      { w with
        log_cache := w.log_cache.drop (pos + 1)
        first_log_index :=
          match w.log_cache.drop (pos + 1) with
          | [] => k + 1
          | e :: _ => e.index } := by
  unfold discardEntriesBefore
  rw [h]

/-- C8: after a successful snapshot creation at index k on a log holding
exactly the entries 1 .. n (with k within the log) whose application
produced the snapshot state, the compacted WAL starts at k + 1, the
snapshot file records (k, term, state), and applying the snapshot state
followed by the retained entries equals applying the whole log from
scratch. -/
theorem C8_snapshot_roundtrip (w : WalState) (data : List (String × String)) (k sterm : Int)
    (hc : contiguousFromB w.log_cache 1 = true)
    (hk1 : 1 ≤ k) (hk2 : k ≤ (w.log_cache.length : Int))
    (hdata : data = applyEntries [] (w.log_cache.take k.toNat)) :
    getFirstLogIndex (takeSnapshot w data k sterm SnapOutcome.renameOk).1 = k + 1 ∧
    (takeSnapshot w data k sterm SnapOutcome.renameOk).2 = some ⟨k, sterm, data⟩ ∧
    applyEntries data (takeSnapshot w data k sterm SnapOutcome.renameOk).1.log_cache
      = applyEntries [] w.log_cache := by
  have hfp : findPos w.log_cache k = some (k - 1).toNat := by
    apply findPos_contiguous w.log_cache 1 k hc hk1
    omega
  have hn : (k - 1).toNat + 1 = k.toNat := by omega
  have hts : (takeSnapshot w data k sterm SnapOutcome.renameOk).1 = discardEntriesBefore w k :=
    rfl
  have hsnap : (takeSnapshot w data k sterm SnapOutcome.renameOk).2 = some ⟨k, sterm, data⟩ :=
    rfl
  have hrest : contiguousFromB (w.log_cache.drop k.toNat) (1 + (k.toNat : Int)) = true :=
    contiguousFromB_drop w.log_cache 1 k.toNat hc
  have hd1 := discard_found w k ((k - 1).toNat) hfp
  rw [hn] at hd1
  have hfirst : getFirstLogIndex (discardEntriesBefore w k) = k + 1 := by
    rw [hd1]
    rcases hdd : w.log_cache.drop k.toNat with _ | ⟨e, tl⟩
    · simp [getFirstLogIndex, hdd]
    · rw [hdd] at hrest
      rw [contiguousFromB, Bool.and_eq_true, decide_eq_true_iff] at hrest
      simp only [getFirstLogIndex, hdd]
      omega
  have hround : applyEntries data (w.log_cache.drop k.toNat) = applyEntries [] w.log_cache := by
    rw [hdata]
    simp only [applyEntries]
    rw [← List.foldl_append, List.take_append_drop]
  refine ⟨?_, hsnap, ?_⟩
  · rw [hts]
    exact hfirst
  · rw [hts, hd1]
    exact hround

/-- Two-entry contiguous WAL used to instantiate the snapshot theorem. -/
def walC8 : WalState :=
  { log_cache := [⟨1, 1, "a", "1", "PUT"⟩, ⟨2, 1, "b", "2", "PUT"⟩],
    first_log_index := 1, meta := none }

/-- Witness for C8: snapshot at index 1 of a two-entry log. -/
theorem C8_witness :
    getFirstLogIndex (takeSnapshot walC8 [("a", "1")] 1 1 SnapOutcome.renameOk).1 = 1 + 1 ∧
    (takeSnapshot walC8 [("a", "1")] 1 1 SnapOutcome.renameOk).2 = some ⟨1, 1, [("a", "1")]⟩ ∧
    applyEntries [("a", "1")]
        (takeSnapshot walC8 [("a", "1")] 1 1 SnapOutcome.renameOk).1.log_cache
      = applyEntries [] walC8.log_cache :=
  C8_snapshot_roundtrip walC8 [("a", "1")] 1 1 (by decide) (by decide) (by decide) (by decide)

/-- Witness WAL for the last-info theorem: one well-formed entry. -/
def walC6w : WalState :=
  { log_cache := [⟨6, 2, "f", "6", "PUT"⟩], first_log_index := 6, meta := none }

/-- Witness for C6: the amended contract instantiated on a one-entry WAL. -/
theorem C6_witness :
    (getLastLogInfo walC6w = (0, 0) ↔ walC6w.log_cache = []) ∧
    getLastLogInfo (installSnapshot walC6w 9 4) = (0, 0) ∧
    getLastLogInfo walC6w = (6, 2) := by
  have h := C6_last_info walC6w (by decide)
  exact ⟨h.1, h.2.1 9 4, h.2.2 [] ⟨6, 2, "f", "6", "PUT"⟩ rfl⟩

/-- Contiguous WAL with entries 1 .. 7, as before any compaction. -/
def walC7 : WalState :=
  { log_cache := [⟨1, 1, "a", "1", "PUT"⟩, ⟨2, 1, "b", "2", "PUT"⟩, ⟨3, 1, "c", "3", "PUT"⟩,
                  ⟨4, 1, "d", "4", "PUT"⟩, ⟨5, 1, "e", "5", "PUT"⟩, ⟨6, 2, "f", "6", "PUT"⟩,
                  ⟨7, 2, "g", "7", "PUT"⟩],
    first_log_index := 1, meta := none }

/-- The same WAL after discardEntriesBefore(5): entries 6 and 7 remain. -/
def walC7c : WalState := discardEntriesBefore walC7 5

/-- C7: evaluating getEntry at the failing input: after the prefix up to 5
is discarded, first_index is 6 and last_index is 7, yet getEntry(6) returns
MISSING and getEntry(1) returns the entry whose index field is 6 — the
lookup is positional, not by entry index. -/
theorem C7_getEntry_after_compaction :
    getFirstLogIndex walC7c = 6 ∧ (getLastLogInfo walC7c).1 = 7 ∧
    getEntry walC7c 6 = none ∧
    Option.map LogEntry.index (getEntry walC7c 1) = some 6 ∧
    Option.map LogEntry.index (getEntry walC7 3) = some 3 := by
  decide

/-- C10: when the metadata file does not exist, loadMetadata reports no
error and returns current_term 0 and voted_for -1, so a fresh node starts
in term 0 having voted for nobody. -/
theorem C10_load_meta_fresh (w : WalState) (h : w.meta = none) :
    loadMetadata w = (0, -1) := by
  rw [loadMetadata, h]

/-- Witness for C10: the fresh WAL has no metadata file and loads the
defaults. -/
theorem C10_witness : emptyWal.meta = none ∧ loadMetadata emptyWal = (0, -1) :=
  ⟨rfl, C10_load_meta_fresh emptyWal rfl⟩
